import Mathlib

/-!
Verification of the FlowGenix marketing-metrics pipeline.

This file shallowly embeds the metrics computation pipeline of the
repository: `MarketingDataEngine` from `src/data_engine.py`
(`process_csv`, `_load_and_validate`, `_clean_data`, `_compute_metrics`,
`_structure_output`, `_format_error`), the `OptimizedMarketingDataEngine`
variant of `_clean_data`, and `MetricsEngine._calculate_metrics` from
`src/metrics_engine.py`.

Modelling conventions:
- Python floats are embedded as rationals (ℚ); `round(x, 2)` is embedded
  as `round2` (round half up at the second decimal), and every concrete
  input used in a theorem avoids exact rounding ties, where the Python
  float rounding could differ.
- A raw CSV cell is abstracted by its parse outcome: `Cell.dateVal d`
  parses as a calendar date (dates are coded as day ordinals, ℕ),
  `Cell.numVal q` parses as a number, `Cell.junk` parses as neither.
  This mirrors `pd.to_datetime(..., errors='coerce')` and
  `pd.to_numeric(..., errors='coerce')`, which either produce a value or
  NaT/NaN.
- Raising a Python exception is embedded as `Except.error`; the
  `try/except` in `process_csv` is the `match` on that value.
- pandas `idxmax`/`idxmin` return the index of the first occurrence of
  the extremum; `firstMaxBy`/`firstMinBy` embed exactly that scan.
-/

namespace FlowGenix

/-- A raw CSV cell, abstracted by its parse outcome. -/
inductive Cell where
  | dateVal (d : ℕ)
  | numVal (q : ℚ)
  | junk
deriving DecidableEq

/-- Embeds `pd.to_datetime(cell, errors='coerce')`: a date or NaT. -/
def parseDate : Cell → Option ℕ
  | .dateVal d => some d
  | _ => none

/-- Embeds `pd.to_numeric(cell, errors='coerce')`: a number or NaN. -/
def parseNum : Cell → Option ℚ
  | .numVal q => some q
  | _ => none

/-- One row of the parsed CSV table (a Raw Record). -/
structure RawRecord where
  date : Cell
  spend : Cell
  clicks : Cell
  impressions : Cell
  conversions : Cell
deriving DecidableEq

/-- One row after cleaning (a Clean Record). -/
structure CleanRecord where
  date : ℕ
  spend : ℚ
  clicks : ℚ
  impressions : ℚ
  conversions : ℚ
deriving DecidableEq

/-- Intermediate row state inside `_clean_data`: the date column after
`to_datetime(errors='coerce')` (NaT = `none`), numeric columns after
`to_numeric(errors='coerce').fillna(0)`. -/
structure CoercedRecord where
  date : Option ℕ
  spend : ℚ
  clicks : ℚ
  impressions : ℚ
  conversions : ℚ
deriving DecidableEq

/-- Row-wise effect of the column conversions at the top of
`MarketingDataEngine._clean_data`. -/
def coerceRow (r : RawRecord) : CoercedRecord :=
  { date := parseDate r.date
    spend := (parseNum r.spend).getD 0
    clicks := (parseNum r.clicks).getD 0
    impressions := (parseNum r.impressions).getD 0
    conversions := (parseNum r.conversions).getD 0 }

/-- Row-wise effect of the final `clip(lower=0)` in `_clean_data`,
packaging the (known-valid) date `d`. -/
def clipClean (c : CoercedRecord) (d : ℕ) : CleanRecord :=
  { date := d
    spend := max c.spend 0
    clicks := max c.clicks 0
    impressions := max c.impressions 0
    conversions := max c.conversions 0 }

/-- Embeds `MarketingDataEngine._clean_data`: coerce the date and numeric
columns, drop rows whose date is NaT, clamp numeric fields to ≥ 0. -/
def cleanData (rows : List RawRecord) : List CleanRecord :=
  ((rows.map coerceRow).filter (fun c => c.date.isSome)).map
    (fun c => clipClean c (c.date.getD 0))

/-- Specification-style per-row description of the standard cleaner: a row
is kept exactly when its date parses. -/
def stdCleanRow (r : RawRecord) : Option CleanRecord :=
  (parseDate r.date).map (fun d => clipClean (coerceRow r) d)

/-- Intermediate row state inside `OptimizedMarketingDataEngine._clean_data`:
numeric columns after `to_numeric(errors='coerce')` but before `fillna`. -/
structure OptCoerced where
  date : Option ℕ
  spend : Option ℚ
  clicks : Option ℚ
  impressions : Option ℚ
  conversions : Option ℚ
deriving DecidableEq

/-- Row-wise effect of the column conversions at the top of the optimized
`_clean_data`. -/
def optCoerceRow (r : RawRecord) : OptCoerced :=
  { date := parseDate r.date
    spend := parseNum r.spend
    clicks := parseNum r.clicks
    impressions := parseNum r.impressions
    conversions := parseNum r.conversions }

/-- The row mask of the optimized `_clean_data`:
`mask_valid_date & mask_has_data`, where `mask_has_data` is
`df[numeric_cols].fillna(0).sum(axis=1) > 0`. -/
def optMask (c : OptCoerced) : Bool :=
  c.date.isSome &&
    decide (0 < c.spend.getD 0 + c.clicks.getD 0 + c.impressions.getD 0
      + c.conversions.getD 0)

/-- Embeds `OptimizedMarketingDataEngine._clean_data`: coerce, keep rows
with a valid date and positive fillna-0 numeric sum, then `fillna(0)` and
`clip(lower=0)`. -/
def cleanDataOpt (rows : List RawRecord) : List CleanRecord :=
  ((rows.map optCoerceRow).filter optMask).map
    (fun c =>
      { date := c.date.getD 0
        spend := max (c.spend.getD 0) 0
        clicks := max (c.clicks.getD 0) 0
        impressions := max (c.impressions.getD 0) 0
        conversions := max (c.conversions.getD 0) 0 })

/-- Specification-style per-row description of the optimized cleaner. -/
def optCleanRow (r : RawRecord) : Option CleanRecord :=
  match parseDate r.date with
  | none => none
  | some d =>
    if 0 < (parseNum r.spend).getD 0 + (parseNum r.clicks).getD 0
        + (parseNum r.impressions).getD 0 + (parseNum r.conversions).getD 0
    then some (clipClean (coerceRow r) d)
    else none

/-- Python's `round(x, 2)`, embedded over ℚ as round half up at the
second decimal (`round2_eq_round` below connects it to Mathlib `round`).
Concrete inputs in the theorems below avoid exact ties, where Python's
float round-half-to-even could differ. -/
def round2 (q : ℚ) : ℚ := (Rat.floor (q * 100 + 1 / 2) : ℚ) / 100

/-- Python's `int(x)` on a real value: truncation toward zero
(`intTrunc_eq_floor` below: on non-negative values it is the floor). -/
def intTrunc (q : ℚ) : ℤ := q.num.tdiv q.den

/-- Embeds `df.loc[df[col].idxmax()]`: the first element of the list
attaining the maximum of `f` (pandas `idxmax` returns the index of the
first occurrence of the maximum). -/
def firstMaxBy (f : α → ℚ) : List α → Option α
  | [] => none
  | x :: xs =>
    match firstMaxBy f xs with
    | none => some x
    | some b => if f b > f x then some b else some x

/-- Embeds `df.loc[df[col].idxmin()]`: the first element of the list
attaining the minimum of `f`. -/
def firstMinBy (f : α → ℚ) : List α → Option α
  | [] => none
  | x :: xs =>
    match firstMinBy f xs with
    | none => some x
    | some b => if f b < f x then some b else some x

/-- The `totals` block of `MarketingDataEngine._compute_metrics`:
`spend` is `float(sum)`, the other three are `int(sum)`. -/
structure Totals where
  spend : ℚ
  clicks : ℤ
  impressions : ℤ
  conversions : ℤ
deriving DecidableEq

/-- The `rates` block of `MarketingDataEngine._compute_metrics`. -/
structure Rates where
  ctr : ℚ
  conversion_rate : ℚ
  cpc : ℚ
  cpa : ℚ
deriving DecidableEq

/-- A `best_day`/`worst_day` snapshot in `MarketingDataEngine`:
`{date, int(conversions), float(spend)}`. -/
structure DaySnap where
  date : ℕ
  conversions : ℤ
  spend : ℚ
deriving DecidableEq

/-- The `performance` block of `MarketingDataEngine._compute_metrics`
(the `avg_ctr`/`avg_cpc` per-row NaN-mean fields are not modelled: no
claim mentions them and they need IEEE NaN semantics). -/
structure Performance where
  best_day : Option DaySnap
  worst_day : Option DaySnap
  avg_daily_spend : ℚ
  avg_daily_conversions : ℚ
  data_points : ℕ
deriving DecidableEq

/-- The metrics object built by `MarketingDataEngine._compute_metrics`
(the `_metadata` block holds only a wall-clock timestamp and a row count
and is not modelled). -/
structure Metrics where
  totals : Totals
  rates : Rates
  performance : Performance
deriving DecidableEq

/-- Snapshot of one clean record, as written into `best_day`/`worst_day`
by `MarketingDataEngine._compute_metrics`. -/
def snap (r : CleanRecord) : DaySnap :=
  { date := r.date, conversions := intTrunc r.conversions, spend := r.spend }

def sumSpend (df : List CleanRecord) : ℚ := (df.map CleanRecord.spend).sum
def sumClicks (df : List CleanRecord) : ℚ := (df.map CleanRecord.clicks).sum
def sumImpressions (df : List CleanRecord) : ℚ :=
  (df.map CleanRecord.impressions).sum
def sumConversions (df : List CleanRecord) : ℚ :=
  (df.map CleanRecord.conversions).sum

/-- Embeds `MarketingDataEngine._compute_metrics`. -/
def computeMetrics (df : List CleanRecord) : Metrics :=
  let totals : Totals :=
    { spend := sumSpend df
      clicks := intTrunc (sumClicks df)
      impressions := intTrunc (sumImpressions df)
      conversions := intTrunc (sumConversions df) }
  let ctr : ℚ :=
    if totals.impressions > 0 then
      (totals.clicks : ℚ) / (totals.impressions : ℚ) * 100 else 0
  let conversion_rate : ℚ :=
    if totals.clicks > 0 then
      (totals.conversions : ℚ) / (totals.clicks : ℚ) * 100 else 0
  let cpc : ℚ := if totals.clicks > 0 then totals.spend / (totals.clicks : ℚ) else 0
  let cpa : ℚ :=
    if totals.conversions > 0 then totals.spend / (totals.conversions : ℚ) else 0
  let rates : Rates :=
    { ctr := round2 ctr
      conversion_rate := round2 conversion_rate
      cpc := round2 cpc
      cpa := round2 cpa }
  let performance : Performance :=
    if df.isEmpty then
      { best_day := none, worst_day := none, avg_daily_spend := 0
        avg_daily_conversions := 0, data_points := 0 }
    else
      { best_day := (firstMaxBy CleanRecord.conversions df).map snap
        worst_day := (firstMinBy CleanRecord.conversions df).map snap
        avg_daily_spend := round2 (sumSpend df / (df.length : ℚ))
        avg_daily_conversions := round2 (sumConversions df / (df.length : ℚ))
        data_points := df.length }
  { totals := totals, rates := rates, performance := performance }

/-- The `summary` block of `MarketingDataEngine._structure_output`. -/
structure Summary where
  period_start : ℕ
  period_end : ℕ
  roi : ℚ
deriving DecidableEq

/-- The envelope returned by `MarketingDataEngine.process_csv`: a success
dict, a validation-error dict (`_format_error`), or the internal-error
dict built in the outer `except` clause. Wall-clock timestamp fields are
not modelled. -/
inductive Envelope where
  | success (data : Metrics) (summary : Summary)
  | validationError (errors : List String)
  | internalError (msg : String)
deriving DecidableEq

/-- Embeds `MarketingDataEngine._structure_output`. On an empty cleaned
table `df['date'].min()` is NaT and `NaT.strftime` raises ValueError;
the raise is embedded as `Except.error` with that exception's message. -/
def structureOutput (df : List CleanRecord) (m : Metrics) :
    Except String Envelope :=
  match (df.map CleanRecord.date).min?, (df.map CleanRecord.date).max? with
  | some a, some b =>
    .ok (.success m
      { period_start := a
        period_end := b
        roi :=
          if m.totals.spend > 0 then
            round2 ((m.totals.conversions : ℚ) * 100 / max m.totals.spend 1)
          else 0 })
  | _, _ => .error "NaTType does not support strftime"

/-- The per-instance state of `MarketingDataEngine` that survives between
calls: `self.validation_errors` (set in `__init__`, appended to by
`_load_and_validate`, never cleared). `self.df` and `self.metrics` are
overwritten on each run and are kept local below. -/
structure EngineState where
  validation_errors : List String
deriving DecidableEq

/-- A fresh engine, as built by `MarketingDataEngine.__init__`. -/
def freshEngine : EngineState := { validation_errors := [] }

/-- The input file as seen by `pd.read_csv`: either unreadable (the read
raises) or a parsed table with a column list and rows. -/
inductive CsvFile where
  | unreadable (err : String)
  | parsed (columns : List String) (rows : List RawRecord)
deriving DecidableEq

def requiredColumns : List String :=
  ["date", "spend", "clicks", "impressions", "conversions"]

/-- The rows of a parsed file (`[]` for an unreadable one; that case is
only reached when validation has already failed). -/
def fileRows : CsvFile → List RawRecord
  | .unreadable _ => []
  | .parsed _ rows => rows

/-- Embeds `MarketingDataEngine._load_and_validate`: append a
file-read / missing-columns / empty-dataset message to the (persisted)
`validation_errors` list. Returns the updated engine state. -/
def loadAndValidate (s : EngineState) (f : CsvFile) : EngineState :=
  match f with
  | .unreadable err =>
    { validation_errors := s.validation_errors ++ ["File read error: " ++ err] }
  | .parsed cols rows =>
    let missing := requiredColumns.filter (fun c => !(cols.contains c))
    if missing.isEmpty then
      if rows.isEmpty then
        { validation_errors := s.validation_errors ++ ["Empty dataset"] }
      else s
    else
      { validation_errors :=
          s.validation_errors ++ ["Missing required columns: " ++ toString missing] }

/-- The pipeline stages of `process_csv`, recorded so that theorems can
state which components ran for a request. -/
inductive Stage where
  | validate
  | clean
  | compute
  | structureOut
deriving DecidableEq

/-- The observable outcome of one `process_csv` call: the engine state it
leaves behind, the returned envelope, and the stages that ran. -/
structure RunResult where
  state : EngineState
  env : Envelope
  stages : List Stage
deriving DecidableEq

/-- Embeds `MarketingDataEngine.process_csv`: validate (the check is on
the whole accumulated `self.validation_errors` list), short-circuit to
`_format_error` if it is non-empty, otherwise clean, compute and
structure; an exception raised while structuring is caught by the outer
`except` and wrapped as an internal-error envelope. -/
def processCsv (s : EngineState) (f : CsvFile) : RunResult :=
  let s1 := loadAndValidate s f
  if s1.validation_errors.isEmpty then
    let df := cleanData (fileRows f)
    let m := computeMetrics df
    match structureOutput df m with
    | .ok env => { state := s1, env := env
                   stages := [.validate, .clean, .compute, .structureOut] }
    | .error msg =>
      { state := s1, env := .internalError ("Processing failed: " ++ msg)
        stages := [.validate, .clean, .compute, .structureOut] }
  else
    { state := s1, env := .validationError s1.validation_errors
      stages := [.validate] }

/-- Embeds the module-level helper `process_marketing_data`, which builds
a fresh engine for the request. -/
def processMarketingData (f : CsvFile) : Envelope := (processCsv freshEngine f).env

/-- One row as `MetricsEngine._load_data` hands it to
`_calculate_metrics`: numeric columns are `to_numeric(errors='coerce').fillna(0)`
(no negative clamp), and the date column is `pd.to_datetime` without
`errors='coerce'`, so every surviving row has a parsed date. -/
structure MRecord where
  date : ℕ
  spend : ℚ
  clicks : ℚ
  impressions : ℚ
  conversions : ℚ
deriving DecidableEq

/-- A `best_day`/`worst_day` snapshot in `MetricsEngine`:
`{date, int(conversions), round(spend, 2)}`. -/
structure MDaySnap where
  date : ℕ
  conversions : ℤ
  spend : ℚ
deriving DecidableEq

/-- The metrics dict built by `MetricsEngine._calculate_metrics`. -/
structure MMetrics where
  total_spend : ℚ
  total_clicks : ℤ
  total_impressions : ℤ
  total_conversions : ℤ
  ctr : ℚ
  conversion_rate : ℚ
  cost_per_conversion : ℚ
  best_day : MDaySnap
  worst_day : MDaySnap
deriving DecidableEq

/-- The date order used by `sort_values(by='date')`. -/
def dateLe (a b : MRecord) : Prop := a.date ≤ b.date

instance : DecidableRel dateLe := fun a b => Nat.decLe a.date b.date

instance : IsTotal MRecord dateLe := ⟨fun a b => Nat.le_total a.date b.date⟩

instance : IsTrans MRecord dateLe := ⟨fun _ _ _ h h' => Nat.le_trans h h'⟩

/-- Embeds `daily_performance = self.df.sort_values(by='date')`. -/
def sortByDate (df : List MRecord) : List MRecord := List.insertionSort dateLe df

/-- Snapshot of one row, as written into `best_day`/`worst_day` by
`MetricsEngine._calculate_metrics`. -/
def msnap (r : MRecord) : MDaySnap :=
  { date := r.date, conversions := intTrunc r.conversions
    spend := round2 r.spend }

/-- Embeds `MetricsEngine._calculate_metrics`: on an empty table the
method returns early and `self.metrics` stays `{}` (`none` here);
otherwise totals are raw sums, the three rates are guarded on the raw
sums, and best/worst day are `idxmax`/`idxmin` over the table sorted by
date ascending. -/
def calculateMetrics (df : List MRecord) : Option MMetrics :=
  if df.isEmpty then none
  else
    let total_spend : ℚ := (df.map MRecord.spend).sum
    let total_clicks : ℚ := (df.map MRecord.clicks).sum
    let total_impressions : ℚ := (df.map MRecord.impressions).sum
    let total_conversions : ℚ := (df.map MRecord.conversions).sum
    let ctr : ℚ :=
      if total_impressions > 0 then total_clicks / total_impressions * 100 else 0
    let conversion_rate : ℚ :=
      if total_clicks > 0 then total_conversions / total_clicks * 100 else 0
    let cost_per_conversion : ℚ :=
      if total_conversions > 0 then total_spend / total_conversions else 0
    let daily := sortByDate df
    match firstMaxBy MRecord.conversions daily,
        firstMinBy MRecord.conversions daily with
    | some bestRow, some worstRow =>
      some
        { total_spend := round2 total_spend
          total_clicks := intTrunc total_clicks
          total_impressions := intTrunc total_impressions
          total_conversions := intTrunc total_conversions
          ctr := round2 ctr
          conversion_rate := round2 conversion_rate
          cost_per_conversion := round2 cost_per_conversion
          best_day := msnap bestRow
          worst_day := msnap worstRow }
    | _, _ => none

/-- Extracts the summary block of a success envelope. -/
def envSummary : Except String Envelope → Option Summary
  | .ok (.success _ s) => some s
  | _ => none

/-- Whether an envelope is a success envelope. -/
def isSuccessEnv : Envelope → Bool
  | .success _ _ => true
  | _ => false

/-! ### Concrete inputs used in counterexamples and witnesses -/

/-- A raw row whose date cell does not parse but whose numeric cells do. -/
def rowBadDate : RawRecord :=
  ⟨Cell.junk, Cell.numVal 1, Cell.numVal 2, Cell.numVal 3, Cell.numVal 4⟩

/-- A raw row in which every cell parses. -/
def rowGood : RawRecord :=
  ⟨Cell.dateVal 1, Cell.numVal 2, Cell.numVal 3, Cell.numVal 4, Cell.numVal 5⟩

/-- A raw row with a parsing date and no parsing numeric cell. -/
def rowAllJunkNums : RawRecord :=
  ⟨Cell.dateVal 3, Cell.junk, Cell.junk, Cell.junk, Cell.junk⟩

/-- A parsed file with the required columns whose single row has an
unparseable date: it validates, but cleans to the empty table. -/
def fileBadDate : CsvFile := .parsed requiredColumns [rowBadDate]

/-- A parsed file with the required columns and one fully parseable
row. -/
def fileGood : CsvFile := .parsed requiredColumns [rowGood]

/-- A parsed file missing the `clicks`, `impressions` and `conversions`
columns. -/
def fileMissingCols : CsvFile := .parsed ["date", "spend"] []

/-- Two records tied on conversions with distinct dates (for the
tie-break counterexample, `MetricsEngine` side). -/
def mTie1 : MRecord := ⟨1, 0, 0, 0, 5⟩

def mTie2 : MRecord := ⟨2, 0, 0, 0, 5⟩

/-- Two clean records tied on conversions, the later date listed first
(for the tie-break counterexample, `MarketingDataEngine` side). -/
def cTieLate : CleanRecord := ⟨2, 0, 0, 0, 5⟩

def cTieEarly : CleanRecord := ⟨1, 0, 0, 0, 5⟩

/-- A one-row cleaned table with spend 3 and conversions 1 (for the roi
rounding counterexample). -/
def dfRoi : List CleanRecord := [⟨7, 3, 10, 100, 1⟩]

/-- A raw row whose spend cell carries three decimal places (for the
spend-rounding counterexample). -/
def rowSpend3dp : RawRecord :=
  ⟨Cell.dateVal 1, Cell.numVal (1006 / 1000), Cell.numVal 1,
    Cell.numVal 1, Cell.numVal 1⟩

/-- A one-row cleaned table with all fields zero. -/
def dfZero : List CleanRecord := [⟨1, 0, 0, 0, 0⟩]

/-- A one-row cleaned table with uniform conversions 5. -/
def dfUniform : List CleanRecord := [⟨1, 2, 3, 4, 5⟩]

/-- An engine state carrying a stale validation error. -/
def staleEngine : EngineState := ⟨["Empty dataset"]⟩

/-! ### Helper lemmas -/

theorem floor_eq_ratFloor (q : ℚ) : ⌊q⌋ = Rat.floor q := rfl

/-- `round2` is rounding half up at the second decimal. -/
theorem round2_eq_round (q : ℚ) :
    round2 q = ((round (q * 100) : ℤ) : ℚ) / 100 := by
  rw [round_eq, round2, floor_eq_ratFloor]

/-- On non-negative values, truncation toward zero is the floor. -/
theorem intTrunc_eq_floor (q : ℚ) (h : 0 ≤ q) : intTrunc q = ⌊q⌋ := by
  rw [Rat.floor_def, intTrunc,
    Int.tdiv_eq_ediv (Rat.num_nonneg.mpr h) (Int.ofNat_nonneg q.den)]

/-- Evaluation rule for `round2` at concrete inputs. -/
theorem round2_eq_of (q : ℚ) (n : ℤ) (h1 : (n : ℚ) ≤ q * 100 + 1 / 2)
    (h2 : q * 100 + 1 / 2 < n + 1) : round2 q = (n : ℚ) / 100 := by
  rw [round2, ← floor_eq_ratFloor, Int.floor_eq_iff.mpr ⟨h1, h2⟩]

theorem round2_zero : round2 0 = 0 := by
  rw [round2_eq_of 0 0 (by norm_num) (by norm_num)]
  norm_num

theorem intTrunc_zero : intTrunc 0 = 0 := rfl

theorem intTrunc_nonneg (q : ℚ) (h : 0 ≤ q) : 0 ≤ intTrunc q := by
  rw [intTrunc_eq_floor q h]
  exact Int.floor_nonneg.mpr h

theorem firstMaxBy_eq_none_iff (f : α → ℚ) (l : List α) :
    firstMaxBy f l = none ↔ l = [] := by
  cases l with
  | nil => simp [firstMaxBy]
  | cons x xs =>
    simp only [firstMaxBy]
    cases firstMaxBy f xs with
    | none => simp
    | some b =>
      by_cases h : f b > f x <;> simp [h]

theorem firstMinBy_eq_none_iff (f : α → ℚ) (l : List α) :
    firstMinBy f l = none ↔ l = [] := by
  cases l with
  | nil => simp [firstMinBy]
  | cons x xs =>
    simp only [firstMinBy]
    cases firstMinBy f xs with
    | none => simp
    | some b =>
      by_cases h : f b < f x <;> simp [h]

theorem firstMaxBy_mem (f : α → ℚ) (l : List α) (b : α)
    (h : firstMaxBy f l = some b) : b ∈ l := by
  induction l with
  | nil => simp [firstMaxBy] at h
  | cons x xs ih =>
    cases hx : firstMaxBy f xs with
    | none =>
      simp only [firstMaxBy, hx, Option.some.injEq] at h
      simp [h]
    | some c =>
      simp only [firstMaxBy, hx] at h
      by_cases hc : f c > f x
      · rw [if_pos hc, Option.some.injEq] at h
        exact List.mem_cons_of_mem x (ih (h ▸ hx))
      · rw [if_neg hc, Option.some.injEq] at h
        simp [h]

theorem firstMinBy_mem (f : α → ℚ) (l : List α) (b : α)
    (h : firstMinBy f l = some b) : b ∈ l := by
  induction l with
  | nil => simp [firstMinBy] at h
  | cons x xs ih =>
    cases hx : firstMinBy f xs with
    | none =>
      simp only [firstMinBy, hx, Option.some.injEq] at h
      simp [h]
    | some c =>
      simp only [firstMinBy, hx] at h
      by_cases hc : f c < f x
      · rw [if_pos hc, Option.some.injEq] at h
        exact List.mem_cons_of_mem x (ih (h ▸ hx))
      · rw [if_neg hc, Option.some.injEq] at h
        simp [h]

theorem firstMaxBy_isMax (f : α → ℚ) (l : List α) (b : α)
    (h : firstMaxBy f l = some b) : ∀ x ∈ l, f x ≤ f b := by
  induction l generalizing b with
  | nil => simp [firstMaxBy] at h
  | cons x xs ih =>
    cases hx : firstMaxBy f xs with
    | none =>
      simp only [firstMaxBy, hx, Option.some.injEq] at h
      have hnil := (firstMaxBy_eq_none_iff f xs).mp hx
      subst hnil
      simp [h]
    | some c =>
      simp only [firstMaxBy, hx] at h
      by_cases hc : f c > f x
      · rw [if_pos hc, Option.some.injEq] at h
        subst h
        intro y hy
        rcases List.mem_cons.mp hy with rfl | hy
        · exact le_of_lt hc
        · exact ih _ hx y hy
      · rw [if_neg hc, Option.some.injEq] at h
        subst h
        intro y hy
        rcases List.mem_cons.mp hy with rfl | hy
        · exact le_refl _
        · exact le_trans (ih c hx y hy) (not_lt.mp hc)

theorem firstMinBy_isMin (f : α → ℚ) (l : List α) (b : α)
    (h : firstMinBy f l = some b) : ∀ x ∈ l, f b ≤ f x := by
  induction l generalizing b with
  | nil => simp [firstMinBy] at h
  | cons x xs ih =>
    cases hx : firstMinBy f xs with
    | none =>
      simp only [firstMinBy, hx, Option.some.injEq] at h
      have hnil := (firstMinBy_eq_none_iff f xs).mp hx
      subst hnil
      simp [h]
    | some c =>
      simp only [firstMinBy, hx] at h
      by_cases hc : f c < f x
      · rw [if_pos hc, Option.some.injEq] at h
        subst h
        intro y hy
        rcases List.mem_cons.mp hy with rfl | hy
        · exact le_of_lt hc
        · exact ih _ hx y hy
      · rw [if_neg hc, Option.some.injEq] at h
        subst h
        intro y hy
        rcases List.mem_cons.mp hy with rfl | hy
        · exact le_refl _
        · exact le_trans (not_lt.mp hc) (ih c hx y hy)

/-- The element returned by `firstMaxBy` is the first occurrence of the
maximum: everything strictly before it in the list is strictly smaller. -/
theorem firstMaxBy_first (f : α → ℚ) (l : List α) (b : α)
    (h : firstMaxBy f l = some b) :
    ∃ l₁ l₂, l = l₁ ++ b :: l₂ ∧ ∀ x ∈ l₁, f x < f b := by
  induction l with
  | nil => simp [firstMaxBy] at h
  | cons x xs ih =>
    cases hx : firstMaxBy f xs with
    | none =>
      simp only [firstMaxBy, hx, Option.some.injEq] at h
      subst h
      exact ⟨[], xs, rfl, by simp⟩
    | some c =>
      simp only [firstMaxBy, hx] at h
      by_cases hc : f c > f x
      · rw [if_pos hc, Option.some.injEq] at h
        subst h
        obtain ⟨l₁, l₂, heq, hlt⟩ := ih hx
        refine ⟨x :: l₁, l₂, by rw [heq]; rfl, ?_⟩
        intro y hy
        rcases List.mem_cons.mp hy with rfl | hy
        · exact hc
        · exact hlt y hy
      · rw [if_neg hc, Option.some.injEq] at h
        subst h
        exact ⟨[], xs, rfl, by simp⟩

/-- The element returned by `firstMinBy` is the first occurrence of the
minimum: everything strictly before it in the list is strictly larger. -/
theorem firstMinBy_first (f : α → ℚ) (l : List α) (b : α)
    (h : firstMinBy f l = some b) :
    ∃ l₁ l₂, l = l₁ ++ b :: l₂ ∧ ∀ x ∈ l₁, f b < f x := by
  induction l with
  | nil => simp [firstMinBy] at h
  | cons x xs ih =>
    cases hx : firstMinBy f xs with
    | none =>
      simp only [firstMinBy, hx, Option.some.injEq] at h
      subst h
      exact ⟨[], xs, rfl, by simp⟩
    | some c =>
      simp only [firstMinBy, hx] at h
      by_cases hc : f c < f x
      · rw [if_pos hc, Option.some.injEq] at h
        subst h
        obtain ⟨l₁, l₂, heq, hlt⟩ := ih hx
        refine ⟨x :: l₁, l₂, by rw [heq]; rfl, ?_⟩
        intro y hy
        rcases List.mem_cons.mp hy with rfl | hy
        · exact hc
        · exact hlt y hy
      · rw [if_neg hc, Option.some.injEq] at h
        subst h
        exact ⟨[], xs, rfl, by simp⟩

/-- When every element has the same value of `f`, both extremum scans
return the head of the list. -/
theorem firstMaxBy_all_eq (f : α → ℚ) (l : List α) (c : ℚ)
    (hall : ∀ x ∈ l, f x = c) : firstMaxBy f l = l.head? := by
  induction l with
  | nil => simp [firstMaxBy]
  | cons x xs ih =>
    simp only [firstMaxBy]
    have hx : ∀ y ∈ xs, f y = c := fun y hy => hall y (List.mem_cons_of_mem x hy)
    rw [ih hx]
    cases hxs : xs.head? with
    | none => simp
    | some b =>
      have hb : b ∈ xs := List.mem_of_mem_head? hxs
      have : ¬ (f b > f x) := by
        rw [hx b hb, hall x (List.mem_cons_self x xs)]
        exact lt_irrefl c
      simp [this]

theorem firstMinBy_all_eq (f : α → ℚ) (l : List α) (c : ℚ)
    (hall : ∀ x ∈ l, f x = c) : firstMinBy f l = l.head? := by
  induction l with
  | nil => simp [firstMinBy]
  | cons x xs ih =>
    simp only [firstMinBy]
    have hx : ∀ y ∈ xs, f y = c := fun y hy => hall y (List.mem_cons_of_mem x hy)
    rw [ih hx]
    cases hxs : xs.head? with
    | none => simp
    | some b =>
      have hb : b ∈ xs := List.mem_of_mem_head? hxs
      have : ¬ (f b < f x) := by
        rw [hx b hb, hall x (List.mem_cons_self x xs)]
        exact lt_irrefl c
      simp [this]

/-- The staged standard cleaner (coerce, filter on the date, clip) is the
row-wise filter `stdCleanRow`. -/
theorem cleanData_eq_filterMap (rows : List RawRecord) :
    cleanData rows = rows.filterMap stdCleanRow := by
  induction rows with
  | nil => rfl
  | cons r rs ih =>
    cases hd : parseDate r.date with
    | none =>
      have hdate : (coerceRow r).date = none := hd
      simp only [cleanData, List.map_cons, List.filter_cons, hdate,
        Option.isSome_none, List.filterMap_cons, stdCleanRow, hd,
        Option.map_none'] at ih ⊢
      exact ih
    | some d =>
      have hdate : (coerceRow r).date = some d := hd
      simp only [cleanData, List.map_cons, List.filter_cons, hdate,
        Option.isSome_some, List.map_cons, List.filterMap_cons, stdCleanRow,
        hd, Option.map_some', Option.getD_some] at ih ⊢
      simp [ih, hdate]

/-- The staged optimized cleaner is the row-wise filter `optCleanRow`. -/
theorem cleanDataOpt_eq_filterMap (rows : List RawRecord) :
    cleanDataOpt rows = rows.filterMap optCleanRow := by
  induction rows with
  | nil => rfl
  | cons r rs ih =>
    cases hd : parseDate r.date with
    | none =>
      have hdate : (optCoerceRow r).date = none := hd
      simp only [cleanDataOpt, List.map_cons, List.filter_cons, optMask,
        hdate, Option.isSome_none, Bool.false_and, List.filterMap_cons,
        optCleanRow, hd] at ih ⊢
      exact ih
    | some d =>
      have hdate : (optCoerceRow r).date = some d := hd
      by_cases hbig : 0 < (parseNum r.spend).getD 0 + (parseNum r.clicks).getD 0
          + (parseNum r.impressions).getD 0 + (parseNum r.conversions).getD 0
      · simp only [cleanDataOpt, List.map_cons, List.filter_cons, optMask,
          hdate, Option.isSome_some, Bool.true_and, optCoerceRow,
          decide_eq_true hbig, List.map_cons, List.filterMap_cons,
          optCleanRow, hd, if_pos hbig] at ih ⊢
        simp [ih, clipClean, coerceRow, optCoerceRow]
      · simp only [cleanDataOpt, List.map_cons, List.filter_cons, optMask,
          hdate, Option.isSome_some, Bool.true_and, optCoerceRow,
          decide_eq_false hbig, List.filterMap_cons, optCleanRow, hd,
          if_neg hbig] at ih ⊢
        exact ih

/-- Every field of a cleaned record is non-negative (the `clip(lower=0)`
invariant). -/
theorem cleanData_nonneg (rows : List RawRecord) :
    ∀ c ∈ cleanData rows,
      0 ≤ c.spend ∧ 0 ≤ c.clicks ∧ 0 ≤ c.impressions ∧ 0 ≤ c.conversions := by
  intro c hc
  rw [cleanData_eq_filterMap] at hc
  obtain ⟨r, _, hr⟩ := List.mem_filterMap.mp hc
  rw [stdCleanRow] at hr
  cases hd : parseDate r.date with
  | none => rw [hd] at hr; simp at hr
  | some d =>
    rw [hd] at hr
    simp only [Option.map_some', Option.some.injEq] at hr
    subst hr
    refine ⟨le_max_right _ _, le_max_right _ _, le_max_right _ _,
      le_max_right _ _⟩

theorem sumSpend_nonneg (df : List CleanRecord)
    (h : ∀ c ∈ df, 0 ≤ c.spend) : 0 ≤ sumSpend df :=
  List.sum_nonneg (by
    intro q hq
    obtain ⟨c, hc, rfl⟩ := List.mem_map.mp hq
    exact h c hc)

theorem sumClicks_nonneg (df : List CleanRecord)
    (h : ∀ c ∈ df, 0 ≤ c.clicks) : 0 ≤ sumClicks df :=
  List.sum_nonneg (by
    intro q hq
    obtain ⟨c, hc, rfl⟩ := List.mem_map.mp hq
    exact h c hc)

theorem sumImpressions_nonneg (df : List CleanRecord)
    (h : ∀ c ∈ df, 0 ≤ c.impressions) : 0 ≤ sumImpressions df :=
  List.sum_nonneg (by
    intro q hq
    obtain ⟨c, hc, rfl⟩ := List.mem_map.mp hq
    exact h c hc)

theorem sumConversions_nonneg (df : List CleanRecord)
    (h : ∀ c ∈ df, 0 ≤ c.conversions) : 0 ≤ sumConversions df :=
  List.sum_nonneg (by
    intro q hq
    obtain ⟨c, hc, rfl⟩ := List.mem_map.mp hq
    exact h c hc)

/-- On a non-empty cleaned table, `_structure_output` succeeds and its
period bounds are the minimum and maximum clean-record date. -/
theorem structureOutput_of_ne_nil (df : List CleanRecord) (m : Metrics)
    (h : df ≠ []) :
    ∃ a b, (df.map CleanRecord.date).min? = some a ∧
      (df.map CleanRecord.date).max? = some b ∧
      a ∈ df.map CleanRecord.date ∧ b ∈ df.map CleanRecord.date ∧
      (∀ d ∈ df.map CleanRecord.date, a ≤ d ∧ d ≤ b) ∧
      structureOutput df m = .ok (.success m
        { period_start := a
          period_end := b
          roi :=
            if m.totals.spend > 0 then
              round2 ((m.totals.conversions : ℚ) * 100 / max m.totals.spend 1)
            else 0 }) := by
  have hne : df.map CleanRecord.date ≠ [] := by
    intro hmap
    exact h (List.map_eq_nil_iff.mp hmap)
  cases hmin : (df.map CleanRecord.date).min? with
  | none => exact absurd (List.min?_eq_none_iff.mp hmin) hne
  | some a =>
    cases hmax : (df.map CleanRecord.date).max? with
    | none => exact absurd (List.max?_eq_none_iff.mp hmax) hne
    | some b =>
      obtain ⟨hamem, hale⟩ := List.min?_eq_some_iff'.mp hmin
      obtain ⟨hbmem, hble⟩ := List.max?_eq_some_iff'.mp hmax
      refine ⟨a, b, rfl, rfl, hamem, hbmem,
        fun d hd => ⟨hale d hd, hble d hd⟩, ?_⟩
      rw [structureOutput, hmin, hmax]

/-- Sorting by date yields a date-sorted list. -/
theorem sortByDate_sorted (l : List MRecord) :
    List.Sorted dateLe (sortByDate l) :=
  List.sorted_insertionSort dateLe l

/-- Sorting by date is a permutation. -/
theorem sortByDate_perm (l : List MRecord) : List.Perm (sortByDate l) l :=
  List.perm_insertionSort dateLe l

theorem sortByDate_ne_nil (l : List MRecord) (h : l ≠ []) :
    sortByDate l ≠ [] := by
  intro hs
  have hlen := (sortByDate_perm l).length_eq
  rw [hs] at hlen
  cases l with
  | nil => exact h rfl
  | cons x xs => simp at hlen

/-- In a date-sorted list split around `b`, every element not strictly
before `b` has a date at least `b.date`. -/
theorem date_le_of_sorted_split (l₁ l₂ : List MRecord) (b x : MRecord)
    (hs : List.Sorted dateLe (l₁ ++ b :: l₂)) (hx : x ∈ l₁ ++ b :: l₂)
    (hnot : x ∉ l₁) : b.date ≤ x.date := by
  rcases List.mem_append.mp hx with h1 | h2
  · exact absurd h1 hnot
  · rcases List.mem_cons.mp h2 with rfl | h2
    · exact le_refl _
    · exact List.rel_of_pairwise_cons (List.pairwise_append.mp hs).2.1 h2

/-- Resolved form of `MetricsEngine._calculate_metrics` on a non-empty
table: the early-return and the extremum scans are discharged. -/
theorem calculateMetrics_eq (mdf : List MRecord) (hm : mdf ≠ []) :
    ∃ b w, firstMaxBy MRecord.conversions (sortByDate mdf) = some b ∧
      firstMinBy MRecord.conversions (sortByDate mdf) = some w ∧
      calculateMetrics mdf = some
        { total_spend := round2 ((mdf.map MRecord.spend).sum)
          total_clicks := intTrunc ((mdf.map MRecord.clicks).sum)
          total_impressions := intTrunc ((mdf.map MRecord.impressions).sum)
          total_conversions := intTrunc ((mdf.map MRecord.conversions).sum)
          ctr := round2 (if (mdf.map MRecord.impressions).sum > 0 then
            (mdf.map MRecord.clicks).sum / (mdf.map MRecord.impressions).sum * 100
            else 0)
          conversion_rate := round2 (if (mdf.map MRecord.clicks).sum > 0 then
            (mdf.map MRecord.conversions).sum / (mdf.map MRecord.clicks).sum * 100
            else 0)
          cost_per_conversion := round2 (if (mdf.map MRecord.conversions).sum > 0
            then (mdf.map MRecord.spend).sum / (mdf.map MRecord.conversions).sum
            else 0)
          best_day := msnap b
          worst_day := msnap w } := by
  have hsne : sortByDate mdf ≠ [] := sortByDate_ne_nil mdf hm
  cases hb : firstMaxBy MRecord.conversions (sortByDate mdf) with
  | none => exact absurd ((firstMaxBy_eq_none_iff _ _).mp hb) hsne
  | some b =>
    cases hw : firstMinBy MRecord.conversions (sortByDate mdf) with
    | none => exact absurd ((firstMinBy_eq_none_iff _ _).mp hw) hsne
    | some w =>
      refine ⟨b, w, rfl, rfl, ?_⟩
      rw [calculateMetrics, if_neg (by simp [hm])]
      simp only [hb, hw]

/-- The cleaned table has exactly one row per source row with a parsing
date. -/
theorem length_cleanData (rows : List RawRecord) :
    (cleanData rows).length =
      (rows.filter (fun r => (parseDate r.date).isSome)).length := by
  rw [cleanData_eq_filterMap]
  induction rows with
  | nil => rfl
  | cons r rs ih =>
    cases hd : parseDate r.date with
    | none =>
      simp only [List.filterMap_cons, stdCleanRow, hd, Option.map_none',
        List.filter_cons, Option.isSome_none, Bool.false_eq_true, if_neg]
      simpa using ih
    | some d =>
      simp only [List.filterMap_cons, stdCleanRow, hd, Option.map_some',
        List.filter_cons, Option.isSome_some, if_pos, List.length_cons]
      simpa using ih

/-- `_load_and_validate` only appends to the persisted error list. -/
theorem loadAndValidate_append (s : EngineState) (f : CsvFile) :
    ∃ extra, (loadAndValidate s f).validation_errors =
      s.validation_errors ++ extra := by
  cases f with
  | unreadable err => exact ⟨_, rfl⟩
  | parsed cols rows =>
    rw [loadAndValidate]
    by_cases hm : (requiredColumns.filter (fun c => !(cols.contains c))).isEmpty
    · rw [if_pos hm]
      by_cases hr : rows.isEmpty
      · rw [if_pos hr]
        exact ⟨_, rfl⟩
      · rw [if_neg hr]
        exact ⟨[], (List.append_nil _).symm⟩
    · rw [if_neg hm]
      exact ⟨_, rfl⟩

/-- A run entered with a non-empty error list short-circuits to the
validation-error envelope: the Cleaner and Calculator do not run. -/
theorem processCsv_of_stale_errors (s : EngineState) (f : CsvFile)
    (h : s.validation_errors ≠ []) :
    (processCsv s f).env =
      .validationError (loadAndValidate s f).validation_errors ∧
    (processCsv s f).stages = [.validate] ∧
    (loadAndValidate s f).validation_errors ≠ [] := by
  obtain ⟨extra, hex⟩ := loadAndValidate_append s f
  have hne : (loadAndValidate s f).validation_errors ≠ [] := by
    rw [hex]
    intro hnil
    exact h (List.append_eq_nil.mp hnil).1
  rw [processCsv, if_neg (by simpa using hne)]
  exact ⟨rfl, rfl, hne⟩

theorem computeMetrics_data_points (df : List CleanRecord) :
    (computeMetrics df).performance.data_points = df.length := by
  simp only [computeMetrics]
  by_cases he : df.isEmpty
  · simp [he, List.isEmpty_iff.mp he]
  · simp [he]

theorem computeMetrics_performance (df : List CleanRecord) (h : df ≠ []) :
    (computeMetrics df).performance.best_day =
      (firstMaxBy CleanRecord.conversions df).map snap ∧
    (computeMetrics df).performance.worst_day =
      (firstMinBy CleanRecord.conversions df).map snap := by
  have he : df.isEmpty = false := by simp [h]
  constructor <;> simp [computeMetrics, he]

/-! ### Claim theorems -/

/-- C2 (code evaluation at the failing input): a validated table whose
single row has an unparseable date cleans to the empty table, and
`process_csv` then returns an internal-error envelope (the
`NaT.strftime` raise inside `_structure_output`, caught by the outer
`except`), not the success envelope with zero totals the specification
requires. -/
theorem c2_empty_clean_internal_error :
    cleanData [rowBadDate] = [] ∧
    processCsv freshEngine fileBadDate =
      { state := freshEngine
        env := Envelope.internalError
          "Processing failed: NaTType does not support strftime"
        stages := [Stage.validate, Stage.clean, Stage.compute,
          Stage.structureOut] } :=
  ⟨by decide, by decide⟩

/-- C4 (counterexample): running the pipeline twice on the same
byte-identical input on the same engine yields different envelopes,
because `validation_errors` persists and the second run appends the same
message again. -/
theorem c4_counterexample :
    (processCsv ((processCsv freshEngine fileMissingCols).state)
      fileMissingCols).env ≠
    (processCsv freshEngine fileMissingCols).env := by
  decide

/-- C4 (amended): a fresh-engine run is a function of the input alone
(`process_marketing_data` constructs a fresh engine per request), but the
engine retains `validation_errors` across runs: any run entered with a
non-empty error list returns a validation-error envelope carrying the
stale errors and never reaches the Cleaner or Calculator. -/
theorem c4_state_retention (s : EngineState) (f g : CsvFile)
    (h : s.validation_errors ≠ []) :
    processMarketingData f = (processCsv freshEngine f).env ∧
    (processCsv s g).env =
      Envelope.validationError (loadAndValidate s g).validation_errors ∧
    (processCsv s g).stages = [Stage.validate] := by
  obtain ⟨h1, h2, _⟩ := processCsv_of_stale_errors s g h
  exact ⟨rfl, h1, h2⟩

/-- C4 (witness): after a failed run, a second run on a structurally
valid file is still rejected without running the Cleaner. -/
theorem c4_state_retention_witness :
    staleEngine.validation_errors ≠ [] ∧
    (processCsv staleEngine fileGood).stages = [Stage.validate] :=
  ⟨by decide,
    (c4_state_retention staleEngine fileGood fileGood (by decide)).2.2⟩

/-- C7: cleaning is a stable filter on dates. The staged cleaner equals
the order-preserving row-wise filter that keeps exactly the rows whose
date parses, and `data_points` counts exactly those rows. -/
theorem c7_stable_filter (rows : List RawRecord) :
    cleanData rows = rows.filterMap stdCleanRow ∧
    (computeMetrics (cleanData rows)).performance.data_points =
      (rows.filter (fun r => (parseDate r.date).isSome)).length :=
  ⟨cleanData_eq_filterMap rows, by
    rw [computeMetrics_data_points, length_cleanData]⟩

/-- C9 (amended): on a non-empty cleaned table the success envelope's
summary has `period_start`/`period_end` equal to the minimum and maximum
clean-record date, and `roi` equal to `conversions * 100 / max(spend, 1)`
rounded to 2 decimal places when total spend is positive, and `0` when
it is zero. -/
theorem c9_summary (df : List CleanRecord) (h : df ≠ []) :
    ∃ a b, structureOutput df (computeMetrics df) =
        Except.ok (Envelope.success (computeMetrics df)
          { period_start := a
            period_end := b
            roi :=
              if (computeMetrics df).totals.spend > 0 then
                round2 (((computeMetrics df).totals.conversions : ℚ) * 100 /
                  max (computeMetrics df).totals.spend 1)
              else 0 }) ∧
      a ∈ df.map CleanRecord.date ∧ b ∈ df.map CleanRecord.date ∧
      ∀ d ∈ df.map CleanRecord.date, a ≤ d ∧ d ≤ b := by
  obtain ⟨a, b, _, _, hma, hmb, hbound, heq⟩ :=
    structureOutput_of_ne_nil df (computeMetrics df) h
  exact ⟨a, b, heq, hma, hmb, hbound⟩

/-- C9 (witness): the summary theorem applied to a one-row table. -/
theorem c9_summary_witness :
    dfZero ≠ [] ∧
    ∃ a b, structureOutput dfZero (computeMetrics dfZero) =
        Except.ok (Envelope.success (computeMetrics dfZero)
          { period_start := a
            period_end := b
            roi :=
              if (computeMetrics dfZero).totals.spend > 0 then
                round2 (((computeMetrics dfZero).totals.conversions : ℚ) *
                  100 / max (computeMetrics dfZero).totals.spend 1)
              else 0 }) ∧
      a ∈ dfZero.map CleanRecord.date ∧ b ∈ dfZero.map CleanRecord.date ∧
      ∀ d ∈ dfZero.map CleanRecord.date, a ≤ d ∧ d ≤ b :=
  ⟨by decide, c9_summary dfZero (by decide)⟩

/-- C10: when every clean record has the same conversions value (in
particular any one-row table), `best_day` and `worst_day` are snapshots
of the same record, so both report identical date, conversions and
spend. -/
theorem c10_uniform_conversions (df : List CleanRecord) (c : ℚ)
    (h : df ≠ []) (hall : ∀ r ∈ df, r.conversions = c) :
    ∃ r ∈ df,
      (computeMetrics df).performance.best_day = some (snap r) ∧
      (computeMetrics df).performance.worst_day = some (snap r) := by
  obtain ⟨hb, hw⟩ := computeMetrics_performance df h
  cases df with
  | nil => exact absurd rfl h
  | cons x xs =>
    refine ⟨x, List.mem_cons_self x xs, ?_, ?_⟩
    · rw [hb, firstMaxBy_all_eq _ _ c hall]
      rfl
    · rw [hw, firstMinBy_all_eq _ _ c hall]
      rfl

/-- C10 (witness): the uniform-conversions theorem at a one-row table. -/
theorem c10_uniform_conversions_witness :
    dfUniform ≠ [] ∧ (∀ r ∈ dfUniform, r.conversions = 5) ∧
    ∃ r ∈ dfUniform,
      (computeMetrics dfUniform).performance.best_day = some (snap r) ∧
      (computeMetrics dfUniform).performance.worst_day = some (snap r) :=
  ⟨by decide, by decide, c10_uniform_conversions dfUniform 5 (by decide) (by decide)⟩

/-- C1 (counterexample): with two records tied on minimal conversions at
dates 1 and 2, `MetricsEngine` reports the worst day at date 1 — the
earliest, not the latest date as claimed (`idxmin` returns the first
occurrence in the date-ascending sort). Moreover `MarketingDataEngine`,
which never sorts, reports as best day the first tied row in table
order — here date 2, not the earliest date. -/
theorem c1_counterexample :
    ((calculateMetrics [mTie1, mTie2]).map (fun m => m.worst_day.date) =
        some 1 ∧ (1 : ℕ) ≠ 2) ∧
    ((computeMetrics [cTieLate, cTieEarly]).performance.best_day.map
        DaySnap.date = some 2 ∧ (2 : ℕ) ≠ 1) :=
  ⟨⟨by decide, by decide⟩, ⟨by decide, by decide⟩⟩

/-- C1 (amended): best/worst selection is a first-occurrence scan, not
the asymmetric earliest/latest rule. In `MetricsEngine` (which sorts by
date ascending) `best_day` is a maximal-conversions record whose date is
least among the maximizers, and `worst_day` is a minimal-conversions
record whose date is least among the minimizers — the earliest date in
both cases. In `MarketingDataEngine` (which does not sort) `best_day`
and `worst_day` are the first maximal and first minimal record in table
order, regardless of date. -/
theorem c1_tie_break (mdf : List MRecord) (df : List CleanRecord)
    (hm : mdf ≠ []) (hd : df ≠ []) :
    (∃ mm, calculateMetrics mdf = some mm ∧
      (∃ b ∈ mdf, mm.best_day = msnap b ∧
        (∀ x ∈ mdf, x.conversions ≤ b.conversions) ∧
        (∀ x ∈ mdf, x.conversions = b.conversions → b.date ≤ x.date)) ∧
      (∃ w ∈ mdf, mm.worst_day = msnap w ∧
        (∀ x ∈ mdf, w.conversions ≤ x.conversions) ∧
        (∀ x ∈ mdf, x.conversions = w.conversions → w.date ≤ x.date))) ∧
    (∃ l₁ l₂ b, df = l₁ ++ b :: l₂ ∧
      (computeMetrics df).performance.best_day = some (snap b) ∧
      (∀ x ∈ df, x.conversions ≤ b.conversions) ∧
      (∀ x ∈ l₁, x.conversions < b.conversions)) ∧
    (∃ l₁ l₂ w, df = l₁ ++ w :: l₂ ∧
      (computeMetrics df).performance.worst_day = some (snap w) ∧
      (∀ x ∈ df, w.conversions ≤ x.conversions) ∧
      (∀ x ∈ l₁, w.conversions < x.conversions)) := by
  obtain ⟨b, w, hb, hw, heq⟩ := calculateMetrics_eq mdf hm
  have hsorted := sortByDate_sorted mdf
  have hmem := fun x => (sortByDate_perm mdf).mem_iff (a := x)
  refine ⟨⟨_, heq, ⟨b, ?_, rfl, ?_, ?_⟩, ⟨w, ?_, rfl, ?_, ?_⟩⟩, ?_, ?_⟩
  · exact (hmem b).mp (firstMaxBy_mem _ _ _ hb)
  · intro x hx
    exact firstMaxBy_isMax _ _ _ hb x ((hmem x).mpr hx)
  · intro x hx hcx
    obtain ⟨l₁, l₂, hsplit, hlt⟩ := firstMaxBy_first _ _ _ hb
    refine date_le_of_sorted_split l₁ l₂ b x (hsplit ▸ hsorted)
      (hsplit ▸ (hmem x).mpr hx) ?_
    intro hxl
    exact absurd hcx (ne_of_lt (hlt x hxl))
  · exact (hmem w).mp (firstMinBy_mem _ _ _ hw)
  · intro x hx
    exact firstMinBy_isMin _ _ _ hw x ((hmem x).mpr hx)
  · intro x hx hcx
    obtain ⟨l₁, l₂, hsplit, hlt⟩ := firstMinBy_first _ _ _ hw
    refine date_le_of_sorted_split l₁ l₂ w x (hsplit ▸ hsorted)
      (hsplit ▸ (hmem x).mpr hx) ?_
    intro hxl
    exact absurd hcx.symm (ne_of_lt (hlt x hxl))
  · obtain ⟨hbd, _⟩ := computeMetrics_performance df hd
    cases hbf : firstMaxBy CleanRecord.conversions df with
    | none => exact absurd ((firstMaxBy_eq_none_iff _ _).mp hbf) hd
    | some bb =>
      obtain ⟨l₁, l₂, hsplit, hlt⟩ := firstMaxBy_first _ _ _ hbf
      exact ⟨l₁, l₂, bb, hsplit, by rw [hbd, hbf]; rfl,
        firstMaxBy_isMax _ _ _ hbf, hlt⟩
  · obtain ⟨_, hwd⟩ := computeMetrics_performance df hd
    cases hwf : firstMinBy CleanRecord.conversions df with
    | none => exact absurd ((firstMinBy_eq_none_iff _ _).mp hwf) hd
    | some ww =>
      obtain ⟨l₁, l₂, hsplit, hlt⟩ := firstMinBy_first _ _ _ hwf
      exact ⟨l₁, l₂, ww, hsplit, by rw [hwd, hwf]; rfl,
        firstMinBy_isMin _ _ _ hwf, hlt⟩

/-- C1 (witness): the tie-break theorem applied to one-row tables. -/
theorem c1_tie_break_witness :
    ([mTie1] ≠ []) ∧ ([cTieEarly] ≠ []) ∧
    ((∃ mm, calculateMetrics [mTie1] = some mm ∧
      (∃ b ∈ [mTie1], mm.best_day = msnap b ∧
        (∀ x ∈ [mTie1], x.conversions ≤ b.conversions) ∧
        (∀ x ∈ [mTie1], x.conversions = b.conversions → b.date ≤ x.date)) ∧
      (∃ w ∈ [mTie1], mm.worst_day = msnap w ∧
        (∀ x ∈ [mTie1], w.conversions ≤ x.conversions) ∧
        (∀ x ∈ [mTie1], x.conversions = w.conversions → w.date ≤ x.date))) ∧
    (∃ l₁ l₂ b, [cTieEarly] = l₁ ++ b :: l₂ ∧
      (computeMetrics [cTieEarly]).performance.best_day = some (snap b) ∧
      (∀ x ∈ [cTieEarly], x.conversions ≤ b.conversions) ∧
      (∀ x ∈ l₁, x.conversions < b.conversions)) ∧
    (∃ l₁ l₂ w, [cTieEarly] = l₁ ++ w :: l₂ ∧
      (computeMetrics [cTieEarly]).performance.worst_day = some (snap w) ∧
      (∀ x ∈ [cTieEarly], w.conversions ≤ x.conversions) ∧
      (∀ x ∈ l₁, w.conversions < x.conversions))) :=
  ⟨by decide, by decide, c1_tie_break [mTie1] [cTieEarly] (by decide) (by decide)⟩

theorem computeMetrics_totals (df : List CleanRecord) :
    (computeMetrics df).totals =
      { spend := sumSpend df
        clicks := intTrunc (sumClicks df)
        impressions := intTrunc (sumImpressions df)
        conversions := intTrunc (sumConversions df) } := rfl

theorem computeMetrics_rates (df : List CleanRecord) :
    (computeMetrics df).rates =
      { ctr := round2 (if intTrunc (sumImpressions df) > 0 then
          (intTrunc (sumClicks df) : ℚ) / (intTrunc (sumImpressions df) : ℚ) * 100
          else 0)
        conversion_rate := round2 (if intTrunc (sumClicks df) > 0 then
          (intTrunc (sumConversions df) : ℚ) / (intTrunc (sumClicks df) : ℚ) * 100
          else 0)
        cpc := round2 (if intTrunc (sumClicks df) > 0 then
          sumSpend df / (intTrunc (sumClicks df) : ℚ) else 0)
        cpa := round2 (if intTrunc (sumConversions df) > 0 then
          sumSpend df / (intTrunc (sumConversions df) : ℚ) else 0) } := rfl

/-- C3: every derived rate is guarded on its denominator and the guard
yields 0.0. In `MarketingDataEngine`, a zero reported total (the guard
value) forces the corresponding rates to 0; in `MetricsEngine` the
guards are on the raw column sums, and a zero sum forces the
corresponding rate to 0. No rate computation can raise: each division
is syntactically under its guard. -/
theorem c3_division_guards (df : List CleanRecord) (mdf : List MRecord) :
    ((computeMetrics df).totals.impressions = 0 →
      (computeMetrics df).rates.ctr = 0) ∧
    ((computeMetrics df).totals.clicks = 0 →
      (computeMetrics df).rates.conversion_rate = 0 ∧
      (computeMetrics df).rates.cpc = 0) ∧
    ((computeMetrics df).totals.conversions = 0 →
      (computeMetrics df).rates.cpa = 0) ∧
    (∀ mm, calculateMetrics mdf = some mm →
      ((mdf.map MRecord.impressions).sum = 0 → mm.ctr = 0) ∧
      ((mdf.map MRecord.clicks).sum = 0 → mm.conversion_rate = 0) ∧
      ((mdf.map MRecord.conversions).sum = 0 → mm.cost_per_conversion = 0)) := by
  refine ⟨?_, ?_, ?_, ?_⟩
  · intro h
    rw [computeMetrics_totals] at h
    simp only [Totals.impressions] at h
    rw [computeMetrics_rates]
    simp only [Rates.ctr, h, lt_irrefl, if_neg, gt_iff_lt]
    simp [round2_zero]
  · intro h
    rw [computeMetrics_totals] at h
    simp only [Totals.clicks] at h
    rw [computeMetrics_rates]
    constructor
    · simp only [Rates.conversion_rate, h, lt_irrefl, if_neg, gt_iff_lt]
      simp [round2_zero]
    · simp only [Rates.cpc, h, lt_irrefl, if_neg, gt_iff_lt]
      simp [round2_zero]
  · intro h
    rw [computeMetrics_totals] at h
    simp only [Totals.conversions] at h
    rw [computeMetrics_rates]
    simp only [Rates.cpa, h, lt_irrefl, if_neg, gt_iff_lt]
    simp [round2_zero]
  · intro mm hmm
    by_cases hm : mdf = []
    · subst hm
      simp [calculateMetrics] at hmm
    · obtain ⟨b, w, hb, hw, heq⟩ := calculateMetrics_eq mdf hm
      rw [heq, Option.some.injEq] at hmm
      subst hmm
      refine ⟨?_, ?_, ?_⟩
      · intro h
        simp only [MMetrics.ctr, h, lt_irrefl, if_neg, gt_iff_lt]
        exact round2_zero
      · intro h
        simp only [MMetrics.conversion_rate, h, lt_irrefl, if_neg, gt_iff_lt]
        exact round2_zero
      · intro h
        simp only [MMetrics.cost_per_conversion, h, lt_irrefl, if_neg,
          gt_iff_lt]
        exact round2_zero

/-- C3 (witness): the guards at the empty cleaned table, where every
total is zero and every rate is reported as 0. -/
theorem c3_division_guards_witness :
    ((computeMetrics []).totals.impressions = 0 ∧
      (computeMetrics []).rates.ctr = 0) ∧
    ((computeMetrics []).totals.clicks = 0 ∧
      (computeMetrics []).rates.conversion_rate = 0 ∧
      (computeMetrics []).rates.cpc = 0) ∧
    ((computeMetrics []).totals.conversions = 0 ∧
      (computeMetrics []).rates.cpa = 0) :=
  ⟨⟨by decide, (c3_division_guards [] []).1 (by decide)⟩,
    ⟨by decide, (c3_division_guards [] []).2.1 (by decide)⟩,
    ⟨by decide, (c3_division_guards [] []).2.2.1 (by decide)⟩⟩

/-- C5 (counterexample): `MarketingDataEngine` totals report spend as
`float(sum)` with no rounding: a single row with spend 1.006 yields a
spend total of 1.006, which is not its own 2-decimal rounding 1.01. -/
theorem c5_counterexample :
    (computeMetrics (cleanData [rowSpend3dp])).totals.spend = 1006 / 1000 ∧
    round2 (1006 / 1000) = 101 / 100 ∧ (1006 / 1000 : ℚ) ≠ 101 / 100 := by
  refine ⟨?_, ?_, by norm_num⟩
  · rw [computeMetrics_totals]
    have hclean : cleanData [rowSpend3dp] =
        [⟨1, 1006 / 1000, 1, 1, 1⟩] := by
      simp [cleanData, rowSpend3dp, coerceRow, clipClean, parseDate, parseNum]
      norm_num
    rw [hclean]
    norm_num [sumSpend]
  · rw [round2_eq_of (1006 / 1000) 101 (by norm_num) (by norm_num)]
    norm_num

/-- C5 (amended): the integer-valued totals `clicks`, `impressions` and
`conversions` are truncated to integers after summation in both engines
(on the clamped clean records the truncation is the floor of the sum);
the spend total is rounded to 2 decimal places in `MetricsEngine` but is
reported as the raw unrounded sum in `MarketingDataEngine`. -/
theorem c5_totals (rows : List RawRecord) (mdf : List MRecord)
    (hm : mdf ≠ []) :
    (computeMetrics (cleanData rows)).totals.spend =
      sumSpend (cleanData rows) ∧
    (computeMetrics (cleanData rows)).totals.clicks =
      ⌊sumClicks (cleanData rows)⌋ ∧
    (computeMetrics (cleanData rows)).totals.impressions =
      ⌊sumImpressions (cleanData rows)⌋ ∧
    (computeMetrics (cleanData rows)).totals.conversions =
      ⌊sumConversions (cleanData rows)⌋ ∧
    ∃ mm, calculateMetrics mdf = some mm ∧
      mm.total_spend = round2 ((mdf.map MRecord.spend).sum) ∧
      mm.total_clicks = intTrunc ((mdf.map MRecord.clicks).sum) ∧
      mm.total_impressions = intTrunc ((mdf.map MRecord.impressions).sum) ∧
      mm.total_conversions = intTrunc ((mdf.map MRecord.conversions).sum) := by
  have hnn := cleanData_nonneg rows
  refine ⟨rfl, ?_, ?_, ?_, ?_⟩
  · rw [computeMetrics_totals]
    exact intTrunc_eq_floor _
      (sumClicks_nonneg _ (fun c hc => (hnn c hc).2.1))
  · rw [computeMetrics_totals]
    exact intTrunc_eq_floor _
      (sumImpressions_nonneg _ (fun c hc => (hnn c hc).2.2.1))
  · rw [computeMetrics_totals]
    exact intTrunc_eq_floor _
      (sumConversions_nonneg _ (fun c hc => (hnn c hc).2.2.2))
  · obtain ⟨b, w, hb, hw, heq⟩ := calculateMetrics_eq mdf hm
    exact ⟨_, heq, rfl, rfl, rfl, rfl⟩

/-- C5 (witness): the totals theorem at a one-row `MetricsEngine` table. -/
theorem c5_totals_witness :
    ([mTie1] ≠ []) ∧
    ∃ mm, calculateMetrics [mTie1] = some mm ∧
      mm.total_spend = round2 (([mTie1].map MRecord.spend).sum) ∧
      mm.total_clicks = intTrunc (([mTie1].map MRecord.clicks).sum) ∧
      mm.total_impressions = intTrunc (([mTie1].map MRecord.impressions).sum) ∧
      mm.total_conversions = intTrunc (([mTie1].map MRecord.conversions).sum) :=
  ⟨by decide, (c5_totals [] [mTie1] (by decide)).2.2.2.2⟩

/-- C6 (counterexample): a row with a parsing date whose numeric cells
all fail to parse is dropped by the optimized cleaner (its fillna-0
numeric sum is not positive), while the standard cleaner keeps it with
all numeric fields zero — so a numeric parse failure can cause row
rejection. -/
theorem c6_counterexample :
    parseDate rowAllJunkNums.date = some 3 ∧
    parseNum rowAllJunkNums.spend = none ∧
    cleanDataOpt [rowAllJunkNums] = [] ∧
    cleanData [rowAllJunkNums] = [⟨3, 0, 0, 0, 0⟩] := by
  refine ⟨by decide, by decide, ?_, ?_⟩
  · simp [cleanDataOpt, rowAllJunkNums, optCoerceRow, optMask, parseDate,
      parseNum]
  · simp [cleanData, rowAllJunkNums, coerceRow, clipClean, parseDate,
      parseNum]

/-- C6 (amended): in the standard cleaner a numeric parse failure never
causes row rejection — the cleaned row count depends only on the date
column, every valid-date row stays in the output, and each failed
numeric cell becomes zero. The optimized cleaner instead also drops any
valid-date row whose fillna-0 numeric sum is not positive — in
particular a row in which every numeric cell fails to parse. -/
theorem c6_numeric_failures (rows : List RawRecord) :
    ((cleanData rows).length =
      (rows.filter (fun r => (parseDate r.date).isSome)).length) ∧
    (∀ r ∈ rows, ∀ d, parseDate r.date = some d →
      clipClean (coerceRow r) d ∈ cleanData rows ∧
      (parseNum r.spend = none → (clipClean (coerceRow r) d).spend = 0) ∧
      (parseNum r.clicks = none → (clipClean (coerceRow r) d).clicks = 0) ∧
      (parseNum r.impressions = none →
        (clipClean (coerceRow r) d).impressions = 0) ∧
      (parseNum r.conversions = none →
        (clipClean (coerceRow r) d).conversions = 0)) ∧
    cleanDataOpt rows = rows.filterMap optCleanRow := by
  refine ⟨length_cleanData rows, ?_, cleanDataOpt_eq_filterMap rows⟩
  intro r hr d hd
  refine ⟨?_, ?_, ?_, ?_, ?_⟩
  · rw [cleanData_eq_filterMap]
    exact List.mem_filterMap.mpr ⟨r, hr, by rw [stdCleanRow, hd]; rfl⟩
  · intro h
    simp [clipClean, coerceRow, h]
  · intro h
    simp [clipClean, coerceRow, h]
  · intro h
    simp [clipClean, coerceRow, h]
  · intro h
    simp [clipClean, coerceRow, h]

/-- C6 (witness): the retention theorem at the all-junk-numerics row. -/
theorem c6_numeric_failures_witness :
    (rowAllJunkNums ∈ [rowAllJunkNums]) ∧
    parseDate rowAllJunkNums.date = some 3 ∧
    parseNum rowAllJunkNums.spend = none ∧
    clipClean (coerceRow rowAllJunkNums) 3 ∈ cleanData [rowAllJunkNums] ∧
    (clipClean (coerceRow rowAllJunkNums) 3).spend = 0 :=
  ⟨by decide, by decide, by decide,
    ((c6_numeric_failures [rowAllJunkNums]).2.1 rowAllJunkNums (by decide)
      3 (by decide)).1,
    ((c6_numeric_failures [rowAllJunkNums]).2.1 rowAllJunkNums (by decide)
      3 (by decide)).2.1 (by decide)⟩

/-- C8 (counterexample): on a fresh engine, a validated file whose only
row has an unparseable date makes the Cleaner and Calculator run, yet
the result is not a success envelope (it is the internal-error envelope
from the `_structure_output` raise) — so validation success does not
imply a success envelope. -/
theorem c8_counterexample :
    (loadAndValidate freshEngine fileBadDate).validation_errors = [] ∧
    (processCsv freshEngine fileBadDate).stages =
      [Stage.validate, Stage.clean, Stage.compute, Stage.structureOut] ∧
    isSuccessEnv (processCsv freshEngine fileBadDate).env = false := by
  refine ⟨by decide, by decide, by decide⟩

/-- C8 (amended): on a fresh engine the pipeline is a gate on validation:
if validation records any error the result is the validation-error
envelope and only the validator runs; otherwise the Cleaner and
Calculator run, and the result is a success envelope whenever at least
one row survives cleaning, and an internal-error envelope when cleaning
drops every row (structuring the output fails on the empty table). -/
theorem c8_validation_gate (f : CsvFile) :
    ((loadAndValidate freshEngine f).validation_errors ≠ [] →
      (processCsv freshEngine f).env =
        Envelope.validationError
          (loadAndValidate freshEngine f).validation_errors ∧
      (processCsv freshEngine f).stages = [Stage.validate]) ∧
    ((loadAndValidate freshEngine f).validation_errors = [] →
      (processCsv freshEngine f).stages =
        [Stage.validate, Stage.clean, Stage.compute, Stage.structureOut] ∧
      (cleanData (fileRows f) ≠ [] →
        ∃ m s, (processCsv freshEngine f).env = Envelope.success m s) ∧
      (cleanData (fileRows f) = [] →
        ∃ msg, (processCsv freshEngine f).env =
          Envelope.internalError msg)) := by
  constructor
  · intro h
    rw [processCsv, if_neg (by simpa using h)]
    exact ⟨rfl, rfl⟩
  · intro h
    have hcond : (loadAndValidate freshEngine f).validation_errors.isEmpty =
        true := by simp [h]
    refine ⟨?_, ?_, ?_⟩
    · rw [processCsv, if_pos hcond]
      cases hso : structureOutput (cleanData (fileRows f))
        (computeMetrics (cleanData (fileRows f))) <;> simp only [hso]
    · intro hne
      obtain ⟨a, b, _, _, _, _, _, heq⟩ := structureOutput_of_ne_nil
        (cleanData (fileRows f)) (computeMetrics (cleanData (fileRows f))) hne
      rw [processCsv, if_pos hcond]
      simp only [heq]
      exact ⟨_, _, rfl⟩
    · intro hnil
      rw [processCsv, if_pos hcond]
      have hso : structureOutput (cleanData (fileRows f))
          (computeMetrics (cleanData (fileRows f))) =
          Except.error "NaTType does not support strftime" := by
        rw [hnil]
        rfl
      simp only [hso]
      exact ⟨_, rfl⟩

/-- C8 (witness): the gate theorem at a file that validates and cleans
to a non-empty table: the result is a success envelope. -/
theorem c8_validation_gate_witness :
    ((loadAndValidate freshEngine fileGood).validation_errors = []) ∧
    (cleanData (fileRows fileGood) ≠ []) ∧
    ∃ m s, (processCsv freshEngine fileGood).env = Envelope.success m s :=
  ⟨by decide, by decide,
    ((c8_validation_gate fileGood).2 (by decide)).2.1 (by decide)⟩

/-- C9 (counterexample): with one clean record of spend 3 and
conversions 1, the summary reports `roi = 33.33`, the rounded value,
whereas the claimed formula `conversions * 100 / max(spend, 1)` equals
100/3 — the claim omits the 2-decimal rounding. -/
theorem c9_counterexample :
    (computeMetrics dfRoi).totals.conversions = 1 ∧
    (computeMetrics dfRoi).totals.spend = 3 ∧
    envSummary (structureOutput dfRoi (computeMetrics dfRoi)) =
      some { period_start := 7, period_end := 7, roi := 3333 / 100 } ∧
    (3333 / 100 : ℚ) ≠ (1 : ℚ) * 100 / max (3 : ℚ) 1 := by
  have hconv : (computeMetrics dfRoi).totals.conversions = 1 := by
    rw [computeMetrics_totals]
    have hsum : sumConversions dfRoi = 1 := by
      norm_num [sumConversions, dfRoi]
    show intTrunc (sumConversions dfRoi) = 1
    rw [hsum]
    rfl
  have hspend : (computeMetrics dfRoi).totals.spend = 3 := by
    rw [computeMetrics_totals]
    norm_num [sumSpend, dfRoi]
  refine ⟨hconv, hspend, ?_, by norm_num⟩
  have h1 : (dfRoi.map CleanRecord.date).min? = some 7 := rfl
  have h2 : (dfRoi.map CleanRecord.date).max? = some 7 := rfl
  rw [structureOutput, h1, h2]
  simp only [envSummary, Option.some.injEq]
  have hroi : (if (computeMetrics dfRoi).totals.spend > 0 then
      round2 (((computeMetrics dfRoi).totals.conversions : ℚ) * 100 /
        max (computeMetrics dfRoi).totals.spend 1)
      else 0) = 3333 / 100 := by
    rw [hconv, hspend, if_pos (by norm_num)]
    have hm3 : max (3 : ℚ) 1 = 3 := by norm_num
    rw [hm3]
    have harg : ((1 : ℤ) : ℚ) * 100 / 3 = 100 / 3 := by norm_num
    rw [harg, round2_eq_of (100 / 3) 3333 (by norm_num) (by norm_num)]
    norm_num
  rw [hroi]

end FlowGenix
